import Mathlib

/-!
Verification of the sparse-matrix mixin layer in scipy/sparse/data.py and
scipy/sparse/mtm.py: the elementwise/relational operator mixin for sparse
matrices with a data attribute, and the mostly_true_matrix complement
wrapper for mostly-True boolean matrices.

A sparse matrix is embedded as its shape, a storage-format tag, and the
list of explicitly stored entries (position, value).  Reading the matrix
densely returns the stored value at a stored position and the implicit
zero elsewhere.  Numpy arrays are immutable values in this embedding, so
a copy is the identity on the value.  Operations supplied by scipy
outside the two source files (dense read, single-cell get/set, format
conversion, the per-matrix sum) are modelled from the spec where noted.
-/

set_option autoImplicit false

/-- Sparse storage formats of the underlying library. -/
inductive SpFormat where
  | csr | csc | coo | bsr | dia | dok | lil
  deriving DecidableEq

/-- The implicit zero of a boolean sparse matrix is False. -/
instance : Zero Bool := ⟨false⟩

/-- A sparse matrix with a data attribute: shape, storage format and the
list of explicitly stored entries (position, value).  The data array of
the source is the list of stored values in storage order. -/
structure SpMat (α : Type) where
  rows : Nat
  cols : Nat
  fmt : SpFormat
  entries : List ((Nat × Nat) × α)
  deriving DecidableEq

/-- Shape attribute of a sparse matrix. -/
def SpMat.shape {α : Type} (m : SpMat α) : Nat × Nat :=
  (m.rows, m.cols)

/-- Number of explicitly stored entries (attribute nnz). -/
def SpMat.nnz {α : Type} (m : SpMat α) : Nat :=
  m.entries.length

/-- The data array: the stored values in storage order. -/
def SpMat.dataList {α : Type} (m : SpMat α) : List α :=
  m.entries.map Prod.snd

/-- Positions of the explicitly stored entries. -/
def SpMat.posList {α : Type} (m : SpMat α) : List (Nat × Nat) :=
  m.entries.map Prod.fst

/-- Embeds _data_matrix._with_data (subclass contract described in
src/scipy/sparse/data.py): a new matrix with the same sparsity pattern
and shape, whose data array is obtained by applying f elementwise to the
data array.  Vectorized numpy expressions such as op(self.data, other)
or ~data are instances of this. -/
def SpMat.with_data {α β : Type} (m : SpMat α) (f : α → β) : SpMat β :=
  ⟨m.rows, m.cols, m.fmt, m.entries.map (fun e => (e.1, f e.2))⟩

/-- Copy of a matrix.  Arrays are immutable values in this embedding, so
a copy is the same value. -/
def SpMat.copy {α : Type} (m : SpMat α) : SpMat α :=
  m

/-- Well-formedness of the stored-entry list: every stored position is
inside the shape, and no position is stored twice. -/
def SpMat.WF {α : Type} (m : SpMat α) : Prop :=
  (∀ e ∈ m.entries, e.1.1 < m.rows ∧ e.1.2 < m.cols) ∧ m.posList.Nodup

instance {α : Type} (m : SpMat α) : Decidable m.WF := by
  unfold SpMat.WF
  infer_instance

/-- Dense read of a sparse matrix: the stored value at a stored position,
the implicit zero elsewhere. -/
def SpMat.toDense {α : Type} [Zero α] (m : SpMat α) (i j : Nat) : α :=
  match m.entries.find? (fun e => decide (e.1 = (i, j))) with
  | some e => e.2
  | none => 0

/-- Modelled from the spec: single-cell read m[i, j] of the underlying
sparse library (scipy code outside the two source files).  It returns the
dense value at the cell. -/
def SpMat.getItem {α : Type} [Zero α] (m : SpMat α) (k : Nat × Nat) : α :=
  m.toDense k.1 k.2

/-- Modelled from the spec: single-cell write m[i, j] = v of the
underlying sparse library (scipy code outside the two source files).  It
sets the dense value at the cell and leaves every other cell unchanged. -/
def SpMat.setItem {α : Type} (m : SpMat α) (k : Nat × Nat) (v : α) : SpMat α :=
  ⟨m.rows, m.cols, m.fmt, (k, v) :: m.entries.filter (fun e => !(decide (e.1 = k)))⟩

/-- Modelled from the spec: diagonal() of the underlying sparse library,
the dense values on the main diagonal. -/
def SpMat.diagonal {α : Type} [Zero α] (m : SpMat α) : List α :=
  (List.range (Min.min m.rows m.cols)).map (fun i => m.toDense i i)

/-- Modelled from the spec: toarray() of the underlying sparse library,
the dense form as a row-major list of rows. -/
def SpMat.toarray {α : Type} [Zero α] (m : SpMat α) : List (List α) :=
  (List.range m.rows).map (fun i => (List.range m.cols).map (fun j => m.toDense i j))

/-- Modelled from the spec: a format conversion of the underlying sparse
library changes the storage format and represents the same matrix. -/
def SpMat.toformat {α : Type} (m : SpMat α) (f : SpFormat) : SpMat α :=
  ⟨m.rows, m.cols, f, m.entries⟩

/-- Modelled from the spec: transpose() of the underlying sparse library. -/
def SpMat.transposeMat {α : Type} (m : SpMat α) : SpMat α :=
  ⟨m.cols, m.rows, m.fmt, m.entries.map (fun e => ((e.1.2, e.1.1), e.2))⟩

/-- Modelled from the spec: sum() with no axis of a boolean sparse matrix
(scipy code outside the two source files) is the number of True dense
entries, which for a well-formed matrix is the number of stored entries
whose value is True. -/
def SpMat.sumBool (m : SpMat Bool) : Nat :=
  (m.entries.filter (fun e => e.2)).length

/-- The complement wrapper of src/scipy/sparse/mtm.py: it owns one sparse
boolean matrix, the attribute negative, representing the logical negation
of the boolean matrix it stands for. -/
structure mostly_true_matrix where
  negative : SpMat Bool
  deriving DecidableEq

/-- Embeds mostly_true_matrix.__init__ (src/scipy/sparse/mtm.py) for a
boolean complement: the dtype is already bool, so the input is copied
when copy is true and stored as the attribute negative.  The astype cast
branch taken by non-boolean inputs is modelled by rawMtmInit below, on
the dtype projection of the state. -/
def mostly_true_matrix.init (negative : SpMat Bool) (copy : Bool) : mostly_true_matrix :=
  if copy then ⟨negative.copy⟩ else ⟨negative⟩

/-- Embeds mostly_true_matrix.__invert__: a copy of the complement. -/
def mostly_true_matrix.invert (w : mostly_true_matrix) : SpMat Bool :=
  w.negative.copy

/-- Embeds the shape delegate of mostly_true_matrix: the complement's shape. -/
def mostly_true_matrix.shape (w : mostly_true_matrix) : Nat × Nat :=
  w.negative.shape

/-- Embeds the reshape attribute of mostly_true_matrix, declared in the
source as a delegate of the attribute named shape: reading it yields the
complement's shape tuple. -/
def mostly_true_matrix.reshape (w : mostly_true_matrix) : Nat × Nat :=
  w.negative.shape

/-- Embeds mostly_true_matrix.__getitem__, a _delegate_inverted of the
complement's __getitem__: the logical negation of the complement's read. -/
def mostly_true_matrix.getItem (w : mostly_true_matrix) (k : Nat × Nat) : Bool :=
  !(w.negative.getItem k)

/-- Embeds mostly_true_matrix.diagonal, a _delegate_inverted of the
complement's diagonal: elementwise negation of the complement's diagonal. -/
def mostly_true_matrix.diagonal (w : mostly_true_matrix) : List Bool :=
  (w.negative.diagonal).map (fun b => !b)

/-- Embeds mostly_true_matrix.toarray, a _delegate_inverted of the
complement's toarray: elementwise negation of the complement's dense form. -/
def mostly_true_matrix.toarray (w : mostly_true_matrix) : List (List Bool) :=
  (w.negative.toarray).map (fun r => r.map (fun b => !b))

/-- Embeds mostly_true_matrix.__setitem__: the assigned value is inverted
with np.invert before being stored into the complement at the key. -/
def mostly_true_matrix.setItem (w : mostly_true_matrix) (k : Nat × Nat) (v : Bool) : mostly_true_matrix :=
  ⟨w.negative.setItem k (!v)⟩

/-- Embeds the axis-None branch of mostly_true_matrix.sum: the complement
is summed, and the result is np.prod(self.shape) minus that sum. -/
def mostly_true_matrix.sumNone (w : mostly_true_matrix) : Int :=
  (w.shape.1 * w.shape.2 : Nat) - (w.negative.sumBool : Int)

/-- Embeds the _delegate_mtm_nocopy conversions of mostly_true_matrix
(asformat, tobsr, tocoo, tocsc, tocsr, todia, todok, tolil): the call is
forwarded to the complement and the result rewrapped with copy False. -/
def mostly_true_matrix.asformat (w : mostly_true_matrix) (f : SpFormat) : mostly_true_matrix :=
  mostly_true_matrix.init (w.negative.toformat f) false

/-- Embeds mostly_true_matrix.tobsr via _delegate_mtm_nocopy. -/
def mostly_true_matrix.tobsr (w : mostly_true_matrix) : mostly_true_matrix :=
  mostly_true_matrix.init (w.negative.toformat SpFormat.bsr) false

/-- Embeds mostly_true_matrix.tocoo via _delegate_mtm_nocopy. -/
def mostly_true_matrix.tocoo (w : mostly_true_matrix) : mostly_true_matrix :=
  mostly_true_matrix.init (w.negative.toformat SpFormat.coo) false

/-- Embeds mostly_true_matrix.tocsc via _delegate_mtm_nocopy. -/
def mostly_true_matrix.tocsc (w : mostly_true_matrix) : mostly_true_matrix :=
  mostly_true_matrix.init (w.negative.toformat SpFormat.csc) false

/-- Embeds mostly_true_matrix.tocsr via _delegate_mtm_nocopy. -/
def mostly_true_matrix.tocsr (w : mostly_true_matrix) : mostly_true_matrix :=
  mostly_true_matrix.init (w.negative.toformat SpFormat.csr) false

/-- Embeds mostly_true_matrix.todia via _delegate_mtm_nocopy. -/
def mostly_true_matrix.todia (w : mostly_true_matrix) : mostly_true_matrix :=
  mostly_true_matrix.init (w.negative.toformat SpFormat.dia) false

/-- Embeds mostly_true_matrix.todok via _delegate_mtm_nocopy. -/
def mostly_true_matrix.todok (w : mostly_true_matrix) : mostly_true_matrix :=
  mostly_true_matrix.init (w.negative.toformat SpFormat.dok) false

/-- Embeds mostly_true_matrix.tolil via _delegate_mtm_nocopy. -/
def mostly_true_matrix.tolil (w : mostly_true_matrix) : mostly_true_matrix :=
  mostly_true_matrix.init (w.negative.toformat SpFormat.lil) false

/-- Embeds mostly_true_matrix.copy via _delegate_mtm_nocopy: the
complement's copy rewrapped with copy False. -/
def mostly_true_matrix.copyOp (w : mostly_true_matrix) : mostly_true_matrix :=
  mostly_true_matrix.init w.negative.copy false

/-- Embeds mostly_true_matrix.transpose via _delegate_mtm_nocopy: the
complement's transpose rewrapped with copy False. -/
def mostly_true_matrix.transposeOp (w : mostly_true_matrix) : mostly_true_matrix :=
  mostly_true_matrix.init w.negative.transposeMat false

/-- Result type of _data_matrix._relative: either a mostly_true_matrix or
a plain boolean sparse matrix. -/
inductive CmpResult where
  | mtm (w : mostly_true_matrix)
  | plain (m : SpMat Bool)
  deriving DecidableEq

/-- Dense read of a comparison result: through a mostly_true_matrix it is
the negation of the complement's dense read, on a plain matrix the dense
read itself. -/
def CmpResult.toDense : CmpResult → Nat → Nat → Bool
  | CmpResult.mtm w, i, j => !(w.negative.toDense i j)
  | CmpResult.plain m, i, j => m.toDense i j

/-- Embeds _data_matrix._relative (src/scipy/sparse/data.py) for a scalar
operand: data = op(self.data, other) over the stored entries; when
op(0, other) holds the result is mostly_true_matrix(self._with_data(~data)),
otherwise self._with_data(data).  The non-scalar branch raises and is part
of the error model below. -/
def SpMat.relative {α : Type} [Zero α] (m : SpMat α) (other : α) (op : α → α → Bool) :
    CmpResult :=
  let data := m.with_data (fun x => op x other)
  if op 0 other then
    CmpResult.mtm (mostly_true_matrix.init (data.with_data (fun b => !b)) true)
  else
    CmpResult.plain data

/-- Embeds _data_matrix.__lt__ with a scalar operand. -/
def SpMat.lt {α : Type} [Zero α] [LinearOrder α] (m : SpMat α) (s : α) : CmpResult :=
  m.relative s (fun a b => decide (a < b))

/-- Embeds _data_matrix.__le__ with a scalar operand. -/
def SpMat.le {α : Type} [Zero α] [LinearOrder α] (m : SpMat α) (s : α) : CmpResult :=
  m.relative s (fun a b => decide (a ≤ b))

/-- Embeds _data_matrix.__eq__ with a scalar operand. -/
def SpMat.eq {α : Type} [Zero α] [DecidableEq α] (m : SpMat α) (s : α) : CmpResult :=
  m.relative s (fun a b => decide (a = b))

/-- Embeds _data_matrix.__ne__ with a scalar operand. -/
def SpMat.ne {α : Type} [Zero α] [DecidableEq α] (m : SpMat α) (s : α) : CmpResult :=
  m.relative s (fun a b => decide (¬(a = b)))

/-- Embeds _data_matrix.__gt__ with a scalar operand. -/
def SpMat.gt {α : Type} [Zero α] [LinearOrder α] (m : SpMat α) (s : α) : CmpResult :=
  m.relative s (fun a b => decide (b < a))

/-- Embeds _data_matrix.__ge__ with a scalar operand. -/
def SpMat.ge {α : Type} [Zero α] [LinearOrder α] (m : SpMat α) (s : α) : CmpResult :=
  m.relative s (fun a b => decide (b ≤ a))

/-- Embeds the boolean branch of _data_matrix.__invert__: when the dtype
is bool, the result wraps the matrix in a mostly_true_matrix (whose
constructor copies it, copy defaulting to True). -/
def SpMat.invertBool (m : SpMat Bool) : mostly_true_matrix :=
  mostly_true_matrix.init m true

/-- Two's-complement bitwise not of a signed integer, the meaning of the
numpy operator ~ on integer data. -/
def intInvert (x : Int) : Int :=
  -(x + 1)

/-- Embeds the non-boolean branch of _data_matrix.__invert__ at integer
dtype: self._with_data(~self.data). -/
def SpMat.invertInt (m : SpMat Int) : SpMat Int :=
  m.with_data intInvert

/-- Operand classification of isscalarlike for the in-place operators: a
scalar, or anything else (an array or matrix operand). -/
inductive Operand (α : Type) where
  | scalar (s : α)
  | nonscalar
  deriving DecidableEq

/-- The NotImplementedError signalled by unsupported operations. -/
inductive OpError where
  | notImplemented
  deriving DecidableEq

/-- The IndexError possibly raised by indexing the underlying library. -/
inductive IndexError where
  | invalidIndex
  deriving DecidableEq

/-- Embeds _data_matrix.__imul__: with a scalar the data array is scaled
in place and the object returned; otherwise NotImplementedError is raised
before any mutation, so the matrix is returned unchanged beside the
error. -/
def SpMat.imul (m : SpMat Rat) : Operand Rat → SpMat Rat × Option OpError
  | Operand.scalar s => (m.with_data (fun x => x * s), none)
  | Operand.nonscalar => (m, some OpError.notImplemented)

/-- Embeds _data_matrix.__itruediv__: with a scalar the data array is
multiplied in place by the reciprocal 1.0 / other; otherwise
NotImplementedError is raised before any mutation. -/
def SpMat.itruediv (m : SpMat Rat) : Operand Rat → SpMat Rat × Option OpError
  | Operand.scalar s => (m.with_data (fun x => x * (1 / s)), none)
  | Operand.nonscalar => (m, some OpError.notImplemented)

/-- Modelled from the spec: indexing a sparse data matrix with a
mostly_true_matrix boolean mask goes through the underlying library's
__getitem__, which is scipy code outside the two source files.  The spec
states that the wrapper combined with the bitwise operators signals not
implemented, which matches this indexing raising IndexError. -/
def spmatrix_getitem_mtm_mask {α : Type} (m : SpMat α) (w : mostly_true_matrix) :
    Except IndexError (SpMat α) :=
  Except.error IndexError.invalidIndex

/-- Embeds the mostly_true_matrix branch of _data_matrix.__and__: the
code first attempts self[other]; an IndexError from that indexing is
turned into NotImplementedError, and a successful indexing result is
returned as is. -/
def SpMat.and_mtm {α : Type} (m : SpMat α) (w : mostly_true_matrix) :
    Except OpError (SpMat α) :=
  match spmatrix_getitem_mtm_mask m w with
  | Except.ok v => Except.ok v
  | Except.error _ => Except.error OpError.notImplemented

/-- The try/except structure of _data_matrix.__and__ on its own: given
the outcome of the attempted indexing self[other], an IndexError becomes
NotImplementedError and a success is passed through. -/
def and_mtm_of_getitem {α : Type} (r : Except IndexError (SpMat α)) :
    Except OpError (SpMat α) :=
  match r with
  | Except.ok v => Except.ok v
  | Except.error _ => Except.error OpError.notImplemented

/-- Embeds the mostly_true_matrix branch of _data_matrix.__or__: it
raises NotImplementedError unconditionally. -/
def SpMat.or_mtm {α : Type} (m : SpMat α) (w : mostly_true_matrix) :
    Except OpError (SpMat α) :=
  Except.error OpError.notImplemented

/-- Embeds the mostly_true_matrix branch of _data_matrix.__xor__: it
raises NotImplementedError unconditionally. -/
def SpMat.xor_mtm {α : Type} (m : SpMat α) (w : mostly_true_matrix) :
    Except OpError (SpMat α) :=
  Except.error OpError.notImplemented

/-- The value np.product(shape) used by _minmax_mixin. -/
def npProduct (s : Nat × Nat) : Nat :=
  s.1 * s.2

/-- The value np.max(data) on a data array, meaningful when the array is
nonempty (its only use in the source is guarded by nnz being nonzero). -/
def npMaxList : List Int → Int
  | [] => 0
  | x :: xs => xs.foldl Max.max x

/-- The value np.min(data) on a data array, meaningful when the array is
nonempty (its only use in the source is guarded by nnz being nonzero). -/
def npMinList : List Int → Int
  | [] => 0
  | x :: xs => xs.foldl Min.min x

/-- Embeds _minmax_mixin.max (src/scipy/sparse/data.py): zero of the
dtype when nnz is 0; otherwise np.max(data), clamped below by zero when
nnz differs from np.product(shape). -/
def SpMat.max (m : SpMat Int) : Int :=
  if m.nnz = 0 then 0
  else
    let mx := npMaxList m.dataList
    if m.nnz ≠ npProduct m.shape then Max.max 0 mx else mx

/-- Embeds _minmax_mixin.min (src/scipy/sparse/data.py): zero of the
dtype when nnz is 0; otherwise np.min(data), clamped above by zero when
nnz differs from np.product(shape). -/
def SpMat.min (m : SpMat Int) : Int :=
  if m.nnz = 0 then 0
  else
    let mn := npMinList m.dataList
    if m.nnz ≠ npProduct m.shape then Min.min 0 mn else mn

/-- The dense form of a matrix flattened into one row-major list. -/
def SpMat.denseList {α : Type} [Zero α] (m : SpMat α) : List α :=
  m.toarray.flatten

/-- Grid of all positions of a shape, as a finite set. -/
def gridSet (r c : Nat) : Finset (Nat × Nat) :=
  Finset.range r ×ˢ Finset.range c

/-- Number of True cells of the boolean matrix represented by a
mostly_true_matrix, counted over its dense form. -/
def mostly_true_matrix.trueCount (w : mostly_true_matrix) : Nat :=
  ((gridSet w.negative.rows w.negative.cols).filter
    (fun p => w.getItem p = true)).card

/-- Numpy dtypes, as far as the dtype invariant needs them.  uint8 has
the same item size as bool, so reinterpreting a boolean buffer as uint8
is a legal numpy dtype assignment. -/
inductive NpDtype where
  | boolDt | uint8 | float64
  deriving DecidableEq

/-- The dtype projection of a sparse matrix state, for the dtype
invariant of the wrapper: astype produces a matrix of the target dtype,
and a copy preserves the dtype. -/
structure RawSp where
  dtype : NpDtype
  deriving DecidableEq

/-- Embeds _data_matrix.astype on the dtype projection:
self._with_data(self.data.astype(t)) has dtype t. -/
def RawSp.astype (m : RawSp) (t : NpDtype) : RawSp :=
  ⟨t⟩

/-- Copy on the dtype projection. -/
def RawSp.copyRaw (m : RawSp) : RawSp :=
  m

/-- The wrapper state for the dtype invariant: the dtype projection of
the attribute negative. -/
structure RawMtm where
  negative : RawSp
  deriving DecidableEq

/-- Embeds mostly_true_matrix.__init__ on the dtype projection: an input
whose dtype is not bool is cast with astype(bool); a boolean input is
copied when copy is true and stored otherwise. -/
def rawMtmInit (negative : RawSp) (copy : Bool) : RawMtm :=
  if negative.dtype ≠ NpDtype.boolDt then ⟨negative.astype NpDtype.boolDt⟩
  else if copy then ⟨negative.copyRaw⟩ else ⟨negative⟩

/-- The wrapper operations whose effect on the complement's dtype the
invariant quantifies over: a single-cell write, the eight delegated
format conversions, copy and transpose (each producing a rewrapped new
complement of the same dtype), the delegated shape assignment, and the
delegated dtype assignment m.dtype = t, which _delegate.__set__ forwards
to the complement where the _data_matrix dtype property setter assigns
self.data.dtype = t. -/
inductive MtmOp where
  | setitem
  | asformat
  | tobsr | tocoo | tocsc | tocsr | todia | todok | tolil
  | copyOp
  | transposeOp
  | setShape
  | setDtype (t : NpDtype)
  deriving DecidableEq

/-- Effect of each wrapper operation on the dtype projection of the
complement.  A single-cell write stores a boolean value into the existing
buffer and leaves the dtype alone; the conversions, copy and transpose
produce a new complement of the same dtype; a shape assignment does not
touch the dtype; a dtype assignment sets it. -/
def RawMtm.applyOp (w : RawMtm) : MtmOp → RawMtm
  | MtmOp.setitem => w
  | MtmOp.asformat => ⟨w.negative.copyRaw⟩
  | MtmOp.tobsr => ⟨w.negative.copyRaw⟩
  | MtmOp.tocoo => ⟨w.negative.copyRaw⟩
  | MtmOp.tocsc => ⟨w.negative.copyRaw⟩
  | MtmOp.tocsr => ⟨w.negative.copyRaw⟩
  | MtmOp.todia => ⟨w.negative.copyRaw⟩
  | MtmOp.todok => ⟨w.negative.copyRaw⟩
  | MtmOp.tolil => ⟨w.negative.copyRaw⟩
  | MtmOp.copyOp => ⟨w.negative.copyRaw⟩
  | MtmOp.transposeOp => ⟨w.negative.copyRaw⟩
  | MtmOp.setShape => w
  | MtmOp.setDtype t => ⟨⟨t⟩⟩

/-- Applying a sequence of wrapper operations in order. -/
def RawMtm.applyOps (w : RawMtm) (ops : List MtmOp) : RawMtm :=
  ops.foldl RawMtm.applyOp w

/-- Whether a wrapper operation is the delegated dtype assignment. -/
def MtmOp.isSetDtype : MtmOp → Bool
  | MtmOp.setDtype _ => true
  | _ => false

/-! Helper lemmas about the embedding. -/

theorem SpMat.with_data_entries {α β : Type} (m : SpMat α) (f : α → β) :
    (m.with_data f).entries = m.entries.map (fun e => (e.1, f e.2)) :=
  rfl

theorem SpMat.find?_with_data {α β : Type} (m : SpMat α) (f : α → β) (i j : Nat) :
    (m.with_data f).entries.find? (fun e => decide (e.1 = (i, j))) =
      (m.entries.find? (fun e => decide (e.1 = (i, j)))).map (fun e => (e.1, f e.2)) := by
  rw [SpMat.with_data_entries, List.find?_map]
  rfl

theorem SpMat.toDense_with_data {α β : Type} [Zero α] [Zero β] (m : SpMat α) (f : α → β)
    (i j : Nat) :
    (m.with_data f).toDense i j =
      match m.entries.find? (fun e => decide (e.1 = (i, j))) with
      | some e => f e.2
      | none => 0 := by
  unfold SpMat.toDense
  rw [SpMat.find?_with_data]
  cases m.entries.find? (fun e => decide (e.1 = (i, j))) <;> rfl

theorem SpMat.with_data_with_data {α β γ : Type} (m : SpMat α) (f : α → β) (g : β → γ) :
    (m.with_data f).with_data g = m.with_data (fun x => g (f x)) := by
  unfold SpMat.with_data
  simp [List.map_map]

theorem eq_of_fst_eq_of_nodup {κ ν : Type} {l : List (κ × ν)}
    (h : (l.map Prod.fst).Nodup) {e₁ e₂ : κ × ν}
    (h₁ : e₁ ∈ l) (h₂ : e₂ ∈ l) (hf : e₁.1 = e₂.1) : e₁ = e₂ := by
  induction l with
  | nil => cases h₁
  | cons a l ih =>
    rw [List.map_cons, List.nodup_cons] at h
    rcases List.mem_cons.mp h₁ with rfl | h₁t
    · rcases List.mem_cons.mp h₂ with rfl | h₂t
      · rfl
      · exact absurd (hf ▸ List.mem_map_of_mem Prod.fst h₂t) h.1
    · rcases List.mem_cons.mp h₂ with rfl | h₂t
      · exact absurd (hf ▸ List.mem_map_of_mem Prod.fst h₁t) h.1
      · exact ih h.2 h₁t h₂t

theorem SpMat.toDense_of_mem {α : Type} [Zero α] {m : SpMat α} {k : Nat × Nat} {v : α}
    (hnd : m.posList.Nodup) (hm : (k, v) ∈ m.entries) :
    m.toDense k.1 k.2 = v := by
  unfold SpMat.toDense
  cases hf : m.entries.find? (fun e => decide (e.1 = (k.1, k.2))) with
  | none =>
    rw [List.find?_eq_none] at hf
    exact absurd (by simp : decide (((k, v) : (Nat × Nat) × α).1 = (k.1, k.2)) = true)
      (hf _ hm)
  | some e =>
    have hpa := List.find?_some hf
    simp only [decide_eq_true_eq] at hpa
    have hp : e.1 = (k.1, k.2) := hpa
    have he : e ∈ m.entries := List.mem_of_find?_eq_some hf
    have : e = (k, v) := eq_of_fst_eq_of_nodup hnd he hm (by simp [hp])
    rw [this]

theorem SpMat.find?_eq_none_iff_not_mem_posList {α : Type} (m : SpMat α) (i j : Nat) :
    m.entries.find? (fun e => decide (e.1 = (i, j))) = none ↔ (i, j) ∉ m.posList := by
  rw [List.find?_eq_none]
  unfold SpMat.posList
  constructor
  · intro h hmem
    rcases List.mem_map.mp hmem with ⟨e, he, hfst⟩
    exact h e he (decide_eq_true hfst)
  · intro h e he hdec
    exact h (List.mem_map.mpr ⟨e, he, of_decide_eq_true hdec⟩)

theorem SpMat.toDense_eq_zero_of_not_mem {α : Type} [Zero α] {m : SpMat α} {i j : Nat}
    (h : (i, j) ∉ m.posList) : m.toDense i j = 0 := by
  unfold SpMat.toDense
  rw [(SpMat.find?_eq_none_iff_not_mem_posList m i j).mpr h]

theorem SpMat.toDense_cases {α : Type} [Zero α] (m : SpMat α) (i j : Nat) :
    m.toDense i j = 0 ∨ ∃ v, ((i, j), v) ∈ m.entries ∧ m.toDense i j = v := by
  unfold SpMat.toDense
  cases hf : m.entries.find? (fun e => decide (e.1 = (i, j))) with
  | none => exact Or.inl rfl
  | some e =>
    refine Or.inr ⟨e.2, ?_, rfl⟩
    have hpa := List.find?_some hf
    simp only [decide_eq_true_eq] at hpa
    have hp : e.1 = (i, j) := hpa
    have he : e ∈ m.entries := List.mem_of_find?_eq_some hf
    rwa [show ((i, j), e.2) = e by rw [← hp]]

theorem foldl_max_init_le (l : List Int) (a : Int) : a ≤ l.foldl Max.max a := by
  induction l generalizing a with
  | nil => exact le_refl a
  | cons x xs ih => exact le_trans (le_max_left a x) (ih (Max.max a x))

theorem le_foldl_max_of_mem {l : List Int} {x : Int} (h : x ∈ l) (a : Int) :
    x ≤ l.foldl Max.max a := by
  induction l generalizing a with
  | nil => cases h
  | cons y ys ih =>
    rcases List.mem_cons.mp h with rfl | hy
    · exact le_trans (le_max_right a x) (foldl_max_init_le ys (Max.max a x))
    · exact ih hy (Max.max a y)

theorem foldl_max_mem_or_init (l : List Int) (a : Int) :
    l.foldl Max.max a = a ∨ l.foldl Max.max a ∈ l := by
  induction l generalizing a with
  | nil => exact Or.inl rfl
  | cons y ys ih =>
    rcases ih (Max.max a y) with h | h
    · rw [List.foldl_cons, h]
      rcases max_choice a y with hm | hm
      · exact Or.inl hm
      · refine Or.inr ?_
        rw [hm]
        exact List.mem_cons_self y ys
    · exact Or.inr (List.mem_cons_of_mem y h)

theorem le_npMaxList_of_mem {l : List Int} {x : Int} (h : x ∈ l) : x ≤ npMaxList l := by
  cases l with
  | nil => cases h
  | cons y ys =>
    rcases List.mem_cons.mp h with rfl | hy
    · exact foldl_max_init_le ys x
    · exact le_foldl_max_of_mem hy y

theorem npMaxList_mem {l : List Int} (h : l ≠ []) : npMaxList l ∈ l := by
  cases l with
  | nil => exact absurd rfl h
  | cons y ys =>
    rcases foldl_max_mem_or_init ys y with hm | hm
    · rw [show npMaxList (y :: ys) = ys.foldl Max.max y from rfl, hm]
      exact List.mem_cons_self y ys
    · exact List.mem_cons_of_mem y hm

theorem foldl_min_le_init (l : List Int) (a : Int) : l.foldl Min.min a ≤ a := by
  induction l generalizing a with
  | nil => exact le_refl a
  | cons x xs ih => exact le_trans (ih (Min.min a x)) (min_le_left a x)

theorem foldl_min_le_of_mem {l : List Int} {x : Int} (h : x ∈ l) (a : Int) :
    l.foldl Min.min a ≤ x := by
  induction l generalizing a with
  | nil => cases h
  | cons y ys ih =>
    rcases List.mem_cons.mp h with rfl | hy
    · exact le_trans (foldl_min_le_init ys (Min.min a x)) (min_le_right a x)
    · exact ih hy (Min.min a y)

theorem foldl_min_mem_or_init (l : List Int) (a : Int) :
    l.foldl Min.min a = a ∨ l.foldl Min.min a ∈ l := by
  induction l generalizing a with
  | nil => exact Or.inl rfl
  | cons y ys ih =>
    rcases ih (Min.min a y) with h | h
    · rw [List.foldl_cons, h]
      rcases min_choice a y with hm | hm
      · exact Or.inl hm
      · refine Or.inr ?_
        rw [hm]
        exact List.mem_cons_self y ys
    · exact Or.inr (List.mem_cons_of_mem y h)

theorem npMinList_le_of_mem {l : List Int} {x : Int} (h : x ∈ l) : npMinList l ≤ x := by
  cases l with
  | nil => cases h
  | cons y ys =>
    rcases List.mem_cons.mp h with rfl | hy
    · exact foldl_min_le_init ys x
    · exact foldl_min_le_of_mem hy y

theorem npMinList_mem {l : List Int} (h : l ≠ []) : npMinList l ∈ l := by
  cases l with
  | nil => exact absurd rfl h
  | cons y ys =>
    rcases foldl_min_mem_or_init ys y with hm | hm
    · rw [show npMinList (y :: ys) = ys.foldl Min.min y from rfl, hm]
      exact List.mem_cons_self y ys
    · exact List.mem_cons_of_mem y hm

theorem SpMat.mem_denseList_iff {α : Type} [Zero α] (m : SpMat α) (x : α) :
    x ∈ m.denseList ↔ ∃ i, i < m.rows ∧ ∃ j, j < m.cols ∧ m.toDense i j = x := by
  unfold SpMat.denseList SpMat.toarray
  simp only [List.mem_flatten, List.mem_map, List.mem_range]
  constructor
  · rintro ⟨l, ⟨i, hi, rfl⟩, hx⟩
    rcases List.mem_map.mp hx with ⟨j, hj, rfl⟩
    exact ⟨i, hi, j, List.mem_range.mp hj, rfl⟩
  · rintro ⟨i, hi, j, hj, rfl⟩
    exact ⟨(List.range m.cols).map (fun j => m.toDense i j), ⟨i, hi, rfl⟩,
      List.mem_map.mpr ⟨j, List.mem_range.mpr hj, rfl⟩⟩

theorem SpMat.denseList_ne_nil {α : Type} [Zero α] (m : SpMat α)
    (hr : 0 < m.rows) (hc : 0 < m.cols) : m.denseList ≠ [] :=
  List.ne_nil_of_mem ((m.mem_denseList_iff (m.toDense 0 0)).mpr ⟨0, hr, 0, hc, rfl⟩)

theorem SpMat.mem_dataList_iff {α : Type} (m : SpMat α) (x : α) :
    x ∈ m.dataList ↔ ∃ e ∈ m.entries, e.2 = x := by
  unfold SpMat.dataList
  simp [List.mem_map]

theorem mem_gridSet_iff (r c : Nat) (p : Nat × Nat) :
    p ∈ gridSet r c ↔ p.1 < r ∧ p.2 < c := by
  unfold gridSet
  rw [Finset.mem_product]
  simp [Finset.mem_range]

theorem gridSet_card (r c : Nat) : (gridSet r c).card = r * c := by
  unfold gridSet
  rw [Finset.card_product]
  simp

theorem SpMat.posList_toFinset_card {α : Type} (m : SpMat α) (h : m.posList.Nodup) :
    m.posList.toFinset.card = m.nnz := by
  rw [List.card_toFinset, h.dedup]
  simp [SpMat.posList, SpMat.nnz]

theorem SpMat.posList_toFinset_subset {α : Type} {m : SpMat α}
    (h : ∀ e ∈ m.entries, e.1.1 < m.rows ∧ e.1.2 < m.cols) :
    m.posList.toFinset ⊆ gridSet m.rows m.cols := by
  intro p hp
  rw [List.mem_toFinset] at hp
  rcases List.mem_map.mp hp with ⟨e, he, rfl⟩
  rw [mem_gridSet_iff]
  exact h e he

theorem SpMat.nnz_le_product {α : Type} {m : SpMat α} (h : m.WF) :
    m.nnz ≤ npProduct m.shape := by
  have hc := m.posList_toFinset_card h.2
  have hle := Finset.card_le_card (SpMat.posList_toFinset_subset h.1)
  rw [hc, gridSet_card] at hle
  exact hle

theorem SpMat.pos_mem_of_full {α : Type} {m : SpMat α} (h : m.WF)
    (hfull : m.nnz = npProduct m.shape) {p : Nat × Nat}
    (hp1 : p.1 < m.rows) (hp2 : p.2 < m.cols) : p ∈ m.posList := by
  have hc := m.posList_toFinset_card h.2
  have heq : m.posList.toFinset = gridSet m.rows m.cols := by
    refine Finset.eq_of_subset_of_card_le (SpMat.posList_toFinset_subset h.1) ?_
    rw [hc, gridSet_card, hfull]
    exact Nat.le_refl _
  rw [← List.mem_toFinset, heq, mem_gridSet_iff]
  exact ⟨hp1, hp2⟩

theorem SpMat.exists_unstored {α : Type} {m : SpMat α} (h : m.WF)
    (hlt : m.nnz < npProduct m.shape) :
    ∃ p : Nat × Nat, p.1 < m.rows ∧ p.2 < m.cols ∧ p ∉ m.posList := by
  have hc := m.posList_toFinset_card h.2
  have hprod : npProduct m.shape = m.rows * m.cols := rfl
  have hss : m.posList.toFinset ⊂ gridSet m.rows m.cols := by
    rw [Finset.ssubset_iff_subset_ne]
    refine ⟨SpMat.posList_toFinset_subset h.1, ?_⟩
    intro heq
    rw [heq, gridSet_card] at hc
    rw [hprod] at hlt
    omega
  rcases Finset.exists_of_ssubset hss with ⟨p, hpg, hpn⟩
  rw [mem_gridSet_iff] at hpg
  exact ⟨p, hpg.1, hpg.2, fun hm => hpn (List.mem_toFinset.mpr hm)⟩

theorem SpMat.sumBool_eq_card {m : SpMat Bool} (h : m.WF) :
    m.sumBool =
      ((gridSet m.rows m.cols).filter (fun p => m.toDense p.1 p.2 = true)).card := by
  classical
  have hnd : ((m.entries.filter (fun e => e.2)).map Prod.fst).Nodup :=
    h.2.sublist (List.Sublist.map Prod.fst (List.filter_sublist m.entries))
  have hcard : ((m.entries.filter (fun e => e.2)).map Prod.fst).toFinset.card
      = m.sumBool := by
    rw [List.card_toFinset, hnd.dedup]
    simp [SpMat.sumBool]
  have hset : ((m.entries.filter (fun e => e.2)).map Prod.fst).toFinset
      = (gridSet m.rows m.cols).filter (fun p => m.toDense p.1 p.2 = true) := by
    ext p
    simp only [List.mem_toFinset, Finset.mem_filter, List.mem_map, List.mem_filter]
    constructor
    · rintro ⟨e, ⟨he, hv⟩, rfl⟩
      refine ⟨(mem_gridSet_iff m.rows m.cols e.1).mpr (h.1 e he), ?_⟩
      have hd : m.toDense e.1.1 e.1.2 = e.2 := by
        refine SpMat.toDense_of_mem h.2 ?_
        rw [show (e.1, e.2) = e from rfl]
        exact he
      rw [hd]
      exact hv
    · rintro ⟨hpg, ht⟩
      rcases SpMat.toDense_cases m p.1 p.2 with h0 | ⟨v, hv, hd⟩
      · rw [h0] at ht
        cases ht
      · refine ⟨((p.1, p.2), v), ⟨hv, ?_⟩, rfl⟩
        rw [hd] at ht
        exact ht
  rw [← hcard, hset]

theorem mtm_trueCount_add_sumBool {w : mostly_true_matrix} (h : w.negative.WF) :
    w.trueCount + w.negative.sumBool = w.negative.rows * w.negative.cols := by
  classical
  rw [SpMat.sumBool_eq_card h]
  unfold mostly_true_matrix.trueCount
  have hcongr : (gridSet w.negative.rows w.negative.cols).filter
      (fun p => w.getItem p = true)
      = (gridSet w.negative.rows w.negative.cols).filter
        (fun p => ¬(w.negative.toDense p.1 p.2 = true)) := by
    refine Finset.filter_congr ?_
    intro p _
    unfold mostly_true_matrix.getItem SpMat.getItem
    cases w.negative.toDense p.1 p.2 <;> simp
  rw [hcongr, Nat.add_comm]
  have hpart := Finset.filter_card_add_filter_neg_card_eq_card
    (s := gridSet w.negative.rows w.negative.cols)
    (p := fun q => w.negative.toDense q.1 q.2 = true)
  rw [gridSet_card] at hpart
  exact hpart

theorem SpMat.dataList_length {α : Type} (m : SpMat α) : m.dataList.length = m.nnz := by
  simp [SpMat.dataList, SpMat.nnz]

theorem SpMat.dataList_ne_nil {α : Type} {m : SpMat α} (h : 0 < m.nnz) : m.dataList ≠ [] := by
  intro hn
  rw [← SpMat.dataList_length, hn] at h
  cases h

theorem SpMat.dataList_mem_denseList {m : SpMat Int} (h : m.WF) {x : Int}
    (hx : x ∈ m.dataList) : x ∈ m.denseList := by
  rcases (m.mem_dataList_iff x).mp hx with ⟨e, he, rfl⟩
  have hb := h.1 e he
  refine (m.mem_denseList_iff e.2).mpr ⟨e.1.1, hb.1, e.1.2, hb.2, ?_⟩
  refine SpMat.toDense_of_mem h.2 ?_
  rw [show (e.1, e.2) = e from rfl]
  exact he

theorem SpMat.denseList_mem_zero_or_data (m : SpMat Int) {x : Int}
    (hx : x ∈ m.denseList) : x = 0 ∨ x ∈ m.dataList := by
  rcases (m.mem_denseList_iff x).mp hx with ⟨i, hi, j, hj, hd⟩
  rcases m.toDense_cases i j with h0 | ⟨v, hv, hveq⟩
  · left
    rw [← hd, h0]
  · right
    rw [← hd, hveq]
    exact (m.mem_dataList_iff v).mpr ⟨((i, j), v), hv, rfl⟩

theorem SpMat.denseList_mem_data_of_full {m : SpMat Int} (h : m.WF)
    (hfull : m.nnz = npProduct m.shape) {x : Int}
    (hx : x ∈ m.denseList) : x ∈ m.dataList := by
  rcases (m.mem_denseList_iff x).mp hx with ⟨i, hi, j, hj, hd⟩
  cases hf : m.entries.find? (fun e => decide (e.1 = (i, j))) with
  | none =>
    have hnot := (SpMat.find?_eq_none_iff_not_mem_posList m i j).mp hf
    exact absurd (SpMat.pos_mem_of_full h hfull (p := (i, j)) hi hj) hnot
  | some e =>
    have hde : m.toDense i j = e.2 := by
      unfold SpMat.toDense
      rw [hf]
    have he := List.mem_of_find?_eq_some hf
    rw [← hd, hde]
    exact (m.mem_dataList_iff e.2).mpr ⟨e, he, rfl⟩

theorem SpMat.zero_mem_denseList {m : SpMat Int} (h : m.WF)
    (hlt : m.nnz < npProduct m.shape) : (0 : Int) ∈ m.denseList := by
  rcases SpMat.exists_unstored h hlt with ⟨p, hp1, hp2, hpn⟩
  refine (m.mem_denseList_iff 0).mpr ⟨p.1, hp1, p.2, hp2, ?_⟩
  refine SpMat.toDense_eq_zero_of_not_mem ?_
  rw [show (p.1, p.2) = p from rfl]
  exact hpn

theorem SpMat.npMaxList_denseList_zero {m : SpMat Int} (h : m.WF)
    (hr : 0 < m.rows) (hc : 0 < m.cols) (h0 : m.nnz = 0) :
    npMaxList m.denseList = 0 := by
  have hne := m.denseList_ne_nil hr hc
  rcases m.denseList_mem_zero_or_data (npMaxList_mem hne) with hz | hd
  · exact hz
  · have hdata : m.dataList = [] := by
      have hl := SpMat.dataList_length m
      rw [h0] at hl
      exact List.length_eq_zero.mp hl
    rw [hdata] at hd
    cases hd

theorem SpMat.npMaxList_denseList_full {m : SpMat Int} (h : m.WF)
    (hr : 0 < m.rows) (hc : 0 < m.cols)
    (hfull : m.nnz = npProduct m.shape) :
    npMaxList m.denseList = npMaxList m.dataList := by
  have hdne := m.denseList_ne_nil hr hc
  have hpos : 0 < m.nnz := by
    rw [hfull]
    rw [show npProduct m.shape = m.rows * m.cols from rfl]
    exact Nat.mul_pos hr hc
  have hlne := SpMat.dataList_ne_nil hpos
  apply le_antisymm
  · exact le_npMaxList_of_mem (SpMat.denseList_mem_data_of_full h hfull (npMaxList_mem hdne))
  · exact le_npMaxList_of_mem (SpMat.dataList_mem_denseList h (npMaxList_mem hlne))

theorem SpMat.npMaxList_denseList_mid {m : SpMat Int} (h : m.WF)
    (hr : 0 < m.rows) (hc : 0 < m.cols)
    (hpos : 0 < m.nnz) (hlt : m.nnz < npProduct m.shape) :
    npMaxList m.denseList = Max.max 0 (npMaxList m.dataList) := by
  have hdne := m.denseList_ne_nil hr hc
  have hlne := SpMat.dataList_ne_nil hpos
  apply le_antisymm
  · rcases m.denseList_mem_zero_or_data (npMaxList_mem hdne) with hz | hd
    · rw [hz]
      exact le_max_left 0 _
    · exact le_trans (le_npMaxList_of_mem hd) (le_max_right 0 _)
  · refine max_le ?_ ?_
    · exact le_npMaxList_of_mem (SpMat.zero_mem_denseList h hlt)
    · exact le_npMaxList_of_mem (SpMat.dataList_mem_denseList h (npMaxList_mem hlne))

theorem SpMat.npMinList_denseList_zero {m : SpMat Int} (h : m.WF)
    (hr : 0 < m.rows) (hc : 0 < m.cols) (h0 : m.nnz = 0) :
    npMinList m.denseList = 0 := by
  have hne := m.denseList_ne_nil hr hc
  rcases m.denseList_mem_zero_or_data (npMinList_mem hne) with hz | hd
  · exact hz
  · have hdata : m.dataList = [] := by
      have hl := SpMat.dataList_length m
      rw [h0] at hl
      exact List.length_eq_zero.mp hl
    rw [hdata] at hd
    cases hd

theorem SpMat.npMinList_denseList_full {m : SpMat Int} (h : m.WF)
    (hr : 0 < m.rows) (hc : 0 < m.cols)
    (hfull : m.nnz = npProduct m.shape) :
    npMinList m.denseList = npMinList m.dataList := by
  have hdne := m.denseList_ne_nil hr hc
  have hpos : 0 < m.nnz := by
    rw [hfull]
    rw [show npProduct m.shape = m.rows * m.cols from rfl]
    exact Nat.mul_pos hr hc
  have hlne := SpMat.dataList_ne_nil hpos
  apply le_antisymm
  · exact npMinList_le_of_mem (SpMat.dataList_mem_denseList h (npMinList_mem hlne))
  · exact npMinList_le_of_mem (SpMat.denseList_mem_data_of_full h hfull (npMinList_mem hdne))

theorem SpMat.npMinList_denseList_mid {m : SpMat Int} (h : m.WF)
    (hr : 0 < m.rows) (hc : 0 < m.cols)
    (hpos : 0 < m.nnz) (hlt : m.nnz < npProduct m.shape) :
    npMinList m.denseList = Min.min 0 (npMinList m.dataList) := by
  have hdne := m.denseList_ne_nil hr hc
  have hlne := SpMat.dataList_ne_nil hpos
  apply le_antisymm
  · refine le_min ?_ ?_
    · exact npMinList_le_of_mem (SpMat.zero_mem_denseList h hlt)
    · exact npMinList_le_of_mem (SpMat.dataList_mem_denseList h (npMinList_mem hlne))
  · rcases m.denseList_mem_zero_or_data (npMinList_mem hdne) with hz | hd
    · rw [hz]
      exact min_le_left 0 _
    · exact le_trans (min_le_right 0 _) (npMinList_le_of_mem hd)

theorem zero_bool_eq_false : (0 : Bool) = false :=
  rfl

theorem mostly_true_matrix.init_true (n : SpMat Bool) :
    mostly_true_matrix.init n true = ⟨n⟩ :=
  rfl

theorem mostly_true_matrix.init_false (n : SpMat Bool) :
    mostly_true_matrix.init n false = ⟨n⟩ :=
  rfl

theorem SpMat.relative_toDense {α : Type} [Zero α] (m : SpMat α) (s : α)
    (op : α → α → Bool) (i j : Nat) :
    (m.relative s op).toDense i j = op (m.toDense i j) s := by
  unfold SpMat.relative
  by_cases h0 : op 0 s
  · rw [if_pos h0]
    simp only [CmpResult.toDense, mostly_true_matrix.init_true,
      SpMat.with_data_with_data]
    rw [SpMat.toDense_with_data]
    unfold SpMat.toDense
    cases m.entries.find? (fun e => decide (e.1 = (i, j))) with
    | none => simp [h0, zero_bool_eq_false]
    | some e => simp
  · rw [if_neg h0]
    simp only [CmpResult.toDense]
    rw [SpMat.toDense_with_data]
    unfold SpMat.toDense
    cases m.entries.find? (fun e => decide (e.1 = (i, j))) with
    | none =>
      simp only [Bool.not_eq_true] at h0
      rw [h0]
      rfl
    | some e => rfl

/-! Claim theorems. -/

/-- C1: for every data matrix m and every scalar operand s, each of the
six comparisons lt, le, eq, ne, gt, ge goes through _relative, which
computes op(m.data, s) over the stored entries; when op(0, s) holds the
result is a mostly_true_matrix wrapping m._with_data of the complemented
comparison data, and otherwise the plain matrix m._with_data of the
comparison data; in both cases the result read densely equals the
elementwise comparison of the dense form of m with s. -/
theorem C1_scalar_comparisons {α : Type} [Zero α] [LinearOrder α] (m : SpMat α) (s : α) :
    (∀ op : α → α → Bool,
      m.relative s op =
        (if op 0 s then
          CmpResult.mtm (mostly_true_matrix.init
            ((m.with_data (fun x => op x s)).with_data (fun b => !b)) true)
         else CmpResult.plain (m.with_data (fun x => op x s))) ∧
      ∀ i j : Nat, (m.relative s op).toDense i j = op (m.toDense i j) s) ∧
    m.lt s = m.relative s (fun a b => decide (a < b)) ∧
    m.le s = m.relative s (fun a b => decide (a ≤ b)) ∧
    m.eq s = m.relative s (fun a b => decide (a = b)) ∧
    m.ne s = m.relative s (fun a b => decide (¬(a = b))) ∧
    m.gt s = m.relative s (fun a b => decide (b < a)) ∧
    m.ge s = m.relative s (fun a b => decide (b ≤ a)) :=
  ⟨fun op => ⟨rfl, fun i j => SpMat.relative_toDense m s op i j⟩,
    rfl, rfl, rfl, rfl, rfl, rfl⟩

/-- C2: the sum of a mostly_true_matrix with no axis is the total number
of elements of the matrix minus the sum of the complement, and this
equals the number of True entries of the represented boolean matrix. -/
theorem C2_mtm_sum (w : mostly_true_matrix) (h : w.negative.WF) :
    w.sumNone = ((w.shape.1 * w.shape.2 : Nat) : Int) - (w.negative.sumBool : Int) ∧
    w.sumNone = (w.trueCount : Int) := by
  have hpart := mtm_trueCount_add_sumBool h
  refine ⟨rfl, ?_⟩
  show ((w.negative.rows * w.negative.cols : Nat) : Int) - (w.negative.sumBool : Int)
    = (w.trueCount : Int)
  omega

/-- C2 witness: the theorem applied to a concrete well-formed wrapper. -/
theorem C2_mtm_sum_witness :
    (⟨⟨2, 2, SpFormat.csr, [((0, 0), true), ((1, 0), false)]⟩⟩ :
        mostly_true_matrix).negative.WF ∧
    (⟨⟨2, 2, SpFormat.csr, [((0, 0), true), ((1, 0), false)]⟩⟩ :
        mostly_true_matrix).sumNone =
      ((⟨⟨2, 2, SpFormat.csr, [((0, 0), true), ((1, 0), false)]⟩⟩ :
        mostly_true_matrix).trueCount : Int) :=
  ⟨by decide, (C2_mtm_sum _ (by decide)).2⟩

/-- C3: reading a mostly_true_matrix inverts on demand: a single-cell
read is the logical negation of the complement's read, and diagonal and
toarray return the elementwise negation of the complement's result, so
that each read yields the pointwise inverted dense form. -/
theorem C3_reads_invert (w : mostly_true_matrix) (k : Nat × Nat) :
    w.getItem k = !(w.negative.getItem k) ∧
    w.diagonal = w.negative.diagonal.map (fun b => !b) ∧
    w.toarray = w.negative.toarray.map (fun r => r.map (fun b => !b)) ∧
    w.diagonal = (List.range (Min.min w.negative.rows w.negative.cols)).map
      (fun i => w.getItem (i, i)) ∧
    w.toarray = (List.range w.negative.rows).map
      (fun i => (List.range w.negative.cols).map (fun j => w.getItem (i, j))) := by
  refine ⟨rfl, rfl, rfl, ?_, ?_⟩
  · unfold mostly_true_matrix.diagonal SpMat.diagonal
    rw [List.map_map]
    rfl
  · unfold mostly_true_matrix.toarray SpMat.toarray
    rw [List.map_map]
    simp only [Function.comp_def, List.map_map]
    rfl

/-- C4: writing through a mostly_true_matrix stores the inverted value
np.invert(v) into the complement at the key, and a subsequent read of the
same key returns the value written. -/
theorem C4_setitem_roundtrip (w : mostly_true_matrix) (k : Nat × Nat) (v : Bool) :
    (w.setItem k v).negative = w.negative.setItem k (!v) ∧
    (w.setItem k v).getItem k = v := by
  refine ⟨rfl, ?_⟩
  unfold mostly_true_matrix.setItem mostly_true_matrix.getItem SpMat.getItem
    SpMat.setItem SpMat.toDense
  rw [List.find?_cons_of_pos _ (by simp)]
  simp

/-- C5: in-place multiply and in-place divide with a non-scalar operand
raise NotImplementedError and leave the matrix unchanged, and each of the
bitwise operations of a data matrix with a mostly_true_matrix operand
raises NotImplementedError (for the and operation through the attempted
indexing, modelled from the spec as raising IndexError). -/
theorem C5_unsupported_not_implemented {α : Type} (m : SpMat Rat) (ma : SpMat α)
    (w : mostly_true_matrix) :
    m.imul Operand.nonscalar = (m, some OpError.notImplemented) ∧
    m.itruediv Operand.nonscalar = (m, some OpError.notImplemented) ∧
    ma.and_mtm w = Except.error OpError.notImplemented ∧
    ma.or_mtm w = Except.error OpError.notImplemented ∧
    ma.xor_mtm w = Except.error OpError.notImplemented :=
  ⟨rfl, rfl, rfl, rfl, rfl⟩

/-- C6 counterexample: the claim that after every wrapper operation the
complement's dtype is boolean fails on a concrete trace, because the
delegated dtype attribute has a setter: constructing the wrapper from a
boolean matrix and then assigning the dtype attribute to uint8 (an item
size compatible with the boolean buffer) leaves the complement with a
non-boolean dtype; the source marks this very attribute with the comment
XXX constrain. -/
theorem C6_dtype_counterexample :
    ((rawMtmInit ⟨NpDtype.boolDt⟩ true).applyOps
      [MtmOp.setDtype NpDtype.uint8]).negative.dtype ≠ NpDtype.boolDt := by
  decide

/-- C6 amended: a non-boolean input matrix is cast with astype(bool) at
construction and a boolean input is stored (copied when copy is true), so
the complement's dtype is boolean after construction; and every wrapper
operation other than the delegated dtype assignment preserves the boolean
dtype, while assigning the dtype attribute sets the complement's dtype to
the assigned value. -/
theorem C6_dtype_invariant_amended (neg : RawSp) (c : Bool) (w : RawMtm) (op : MtmOp)
    (hop : op.isSetDtype = false) (hw : w.negative.dtype = NpDtype.boolDt) :
    (rawMtmInit neg c).negative.dtype = NpDtype.boolDt ∧
    (neg.dtype ≠ NpDtype.boolDt → rawMtmInit neg c = ⟨neg.astype NpDtype.boolDt⟩) ∧
    (neg.dtype = NpDtype.boolDt →
      rawMtmInit neg true = ⟨neg.copyRaw⟩ ∧ rawMtmInit neg false = ⟨neg⟩) ∧
    (w.applyOp op).negative.dtype = NpDtype.boolDt ∧
    (∀ t, (w.applyOp (MtmOp.setDtype t)).negative.dtype = t) := by
  refine ⟨?_, ?_, ?_, ?_, fun t => rfl⟩
  · unfold rawMtmInit
    by_cases hb : neg.dtype = NpDtype.boolDt
    · rw [if_neg (by simpa using hb)]
      cases c <;> simpa [RawSp.copyRaw]
    · rw [if_pos hb]
      rfl
  · intro hb
    unfold rawMtmInit
    rw [if_pos hb]
  · intro hb
    constructor <;> · unfold rawMtmInit; rw [if_neg (by simpa using hb)]; rfl
  · cases op <;> simp_all [RawMtm.applyOp, RawSp.copyRaw, MtmOp.isSetDtype]

/-- C6 witness: the amended invariant applied to a concrete construction
from a uint8 input followed by a tocsr conversion. -/
theorem C6_dtype_witness :
    MtmOp.tocsr.isSetDtype = false ∧
    (rawMtmInit ⟨NpDtype.uint8⟩ true).negative.dtype = NpDtype.boolDt ∧
    ((rawMtmInit ⟨NpDtype.uint8⟩ true).applyOp MtmOp.tocsr).negative.dtype
      = NpDtype.boolDt :=
  ⟨by decide, by decide,
    (C6_dtype_invariant_amended ⟨NpDtype.uint8⟩ true
      (rawMtmInit ⟨NpDtype.uint8⟩ true) MtmOp.tocsr (by decide) (by decide)).2.2.2.1⟩

/-- C7: inverting a boolean data matrix wraps a copy of it in a
mostly_true_matrix, and inverting that wrapper returns a copy of the
complement equal to the original matrix, so double boolean negation is
the identity up to copying; inverting a non-boolean (integer) data matrix
returns the matrix with its data array inverted bitwise. -/
theorem C7_double_negation (m : SpMat Bool) (mi : SpMat Int) :
    m.invertBool = mostly_true_matrix.init m true ∧
    (m.invertBool).negative = m.copy ∧
    (m.invertBool).invert = m ∧
    mi.invertInt = mi.with_data intInvert ∧
    (mi.invertInt).dataList = mi.dataList.map intInvert := by
  refine ⟨rfl, rfl, rfl, rfl, ?_⟩
  unfold SpMat.invertInt SpMat.with_data SpMat.dataList
  simp [List.map_map]

/-- C8: each format conversion of a mostly_true_matrix (asformat, tobsr,
tocoo, tocsc, tocsr, todia, todok, tolil), and likewise copy and
transpose, forwards the call to the complement and rewraps the result in
a new mostly_true_matrix without copying it; the represented boolean
matrix (its dense reads and its shape) is unchanged by the format
conversions and by copy. -/
theorem C8_conversions_forwarded (w : mostly_true_matrix) (f : SpFormat) (k : Nat × Nat) :
    (w.asformat f = mostly_true_matrix.init (w.negative.toformat f) false ∧
     w.tobsr = mostly_true_matrix.init (w.negative.toformat SpFormat.bsr) false ∧
     w.tocoo = mostly_true_matrix.init (w.negative.toformat SpFormat.coo) false ∧
     w.tocsc = mostly_true_matrix.init (w.negative.toformat SpFormat.csc) false ∧
     w.tocsr = mostly_true_matrix.init (w.negative.toformat SpFormat.csr) false ∧
     w.todia = mostly_true_matrix.init (w.negative.toformat SpFormat.dia) false ∧
     w.todok = mostly_true_matrix.init (w.negative.toformat SpFormat.dok) false ∧
     w.tolil = mostly_true_matrix.init (w.negative.toformat SpFormat.lil) false ∧
     w.copyOp = mostly_true_matrix.init w.negative.copy false ∧
     w.transposeOp = mostly_true_matrix.init w.negative.transposeMat false) ∧
    ((w.asformat f).getItem k = w.getItem k ∧
     w.tobsr.getItem k = w.getItem k ∧
     w.tocoo.getItem k = w.getItem k ∧
     w.tocsc.getItem k = w.getItem k ∧
     w.tocsr.getItem k = w.getItem k ∧
     w.todia.getItem k = w.getItem k ∧
     w.todok.getItem k = w.getItem k ∧
     w.tolil.getItem k = w.getItem k ∧
     w.copyOp.getItem k = w.getItem k) ∧
    ((w.asformat f).shape = w.shape ∧
     w.tobsr.shape = w.shape ∧
     w.tocoo.shape = w.shape ∧
     w.tocsc.shape = w.shape ∧
     w.tocsr.shape = w.shape ∧
     w.todia.shape = w.shape ∧
     w.todok.shape = w.shape ∧
     w.tolil.shape = w.shape ∧
     w.copyOp.shape = w.shape) :=
  ⟨⟨rfl, rfl, rfl, rfl, rfl, rfl, rfl, rfl, rfl, rfl⟩,
   ⟨rfl, rfl, rfl, rfl, rfl, rfl, rfl, rfl, rfl⟩,
   ⟨rfl, rfl, rfl, rfl, rfl, rfl, rfl, rfl, rfl⟩⟩

/-- C9: the reshape attribute of a mostly_true_matrix is declared as a
delegate of the attribute named shape, so reading it evaluates to the
complement's shape tuple and not to a reshaping operation. -/
theorem C9_reshape_is_shape (w : mostly_true_matrix) :
    w.reshape = w.negative.shape ∧
    w.reshape = (w.negative.rows, w.negative.cols) ∧
    w.reshape = w.shape :=
  ⟨rfl, rfl, rfl⟩

/-- C10: for a well-formed matrix with a nonempty shape, max and min of
the minmax mixin take implicit zeros into account: when nnz is 0 the
result is zero; when nnz equals the number of elements the result is
the maximum (minimum) of the data; otherwise the data maximum (minimum)
is clamped by zero; and in all cases the result equals the maximum
(minimum) over the dense form of the matrix. -/
theorem C10_minmax_implicit_zeros (m : SpMat Int) (hwf : m.WF)
    (hpos : 0 < npProduct m.shape) :
    (m.max = if m.nnz = 0 then 0
       else if m.nnz = npProduct m.shape then npMaxList m.dataList
       else Max.max 0 (npMaxList m.dataList)) ∧
    (m.min = if m.nnz = 0 then 0
       else if m.nnz = npProduct m.shape then npMinList m.dataList
       else Min.min 0 (npMinList m.dataList)) ∧
    m.max = npMaxList m.denseList ∧
    m.min = npMinList m.denseList := by
  have hrc : 0 < m.rows * m.cols := hpos
  have hr : 0 < m.rows := by
    rcases Nat.eq_zero_or_pos m.rows with h | h
    · rw [h] at hrc
      simp at hrc
    · exact h
  have hc : 0 < m.cols := by
    rcases Nat.eq_zero_or_pos m.cols with h | h
    · rw [h] at hrc
      simp at hrc
    · exact h
  have hmax : m.max = if m.nnz = 0 then 0
      else if m.nnz = npProduct m.shape then npMaxList m.dataList
      else Max.max 0 (npMaxList m.dataList) := by
    simp only [SpMat.max]
    split_ifs with h1 h2 h3 <;> first | rfl | omega
  have hmin : m.min = if m.nnz = 0 then 0
      else if m.nnz = npProduct m.shape then npMinList m.dataList
      else Min.min 0 (npMinList m.dataList) := by
    simp only [SpMat.min]
    split_ifs with h1 h2 h3 <;> first | rfl | omega
  refine ⟨hmax, hmin, ?_, ?_⟩
  · rw [hmax]
    by_cases h0 : m.nnz = 0
    · rw [if_pos h0, SpMat.npMaxList_denseList_zero hwf hr hc h0]
    · rw [if_neg h0]
      by_cases hfull : m.nnz = npProduct m.shape
      · rw [if_pos hfull, SpMat.npMaxList_denseList_full hwf hr hc hfull]
      · have hlt : m.nnz < npProduct m.shape :=
          lt_of_le_of_ne (SpMat.nnz_le_product hwf) hfull
        rw [if_neg hfull,
          SpMat.npMaxList_denseList_mid hwf hr hc (Nat.pos_of_ne_zero h0) hlt]
  · rw [hmin]
    by_cases h0 : m.nnz = 0
    · rw [if_pos h0, SpMat.npMinList_denseList_zero hwf hr hc h0]
    · rw [if_neg h0]
      by_cases hfull : m.nnz = npProduct m.shape
      · rw [if_pos hfull, SpMat.npMinList_denseList_full hwf hr hc hfull]
      · have hlt : m.nnz < npProduct m.shape :=
          lt_of_le_of_ne (SpMat.nnz_le_product hwf) hfull
        rw [if_neg hfull,
          SpMat.npMinList_denseList_mid hwf hr hc (Nat.pos_of_ne_zero h0) hlt]

/-- C10 witness: the theorem applied to a concrete well-formed matrix
with one positive and one negative stored value and two implicit zeros. -/
theorem C10_minmax_witness :
    (⟨2, 2, SpFormat.csr, [((0, 0), (3 : Int)), ((1, 1), -2)]⟩ : SpMat Int).WF ∧
    0 < npProduct (⟨2, 2, SpFormat.csr, [((0, 0), (3 : Int)), ((1, 1), -2)]⟩ : SpMat Int).shape ∧
    (⟨2, 2, SpFormat.csr, [((0, 0), (3 : Int)), ((1, 1), -2)]⟩ : SpMat Int).max
      = npMaxList (⟨2, 2, SpFormat.csr, [((0, 0), (3 : Int)), ((1, 1), -2)]⟩ : SpMat Int).denseList ∧
    (⟨2, 2, SpFormat.csr, [((0, 0), (3 : Int)), ((1, 1), -2)]⟩ : SpMat Int).min
      = npMinList (⟨2, 2, SpFormat.csr, [((0, 0), (3 : Int)), ((1, 1), -2)]⟩ : SpMat Int).denseList :=
  ⟨by decide, by decide,
    (C10_minmax_implicit_zeros _ (by decide) (by decide)).2.2.1,
    (C10_minmax_implicit_zeros _ (by decide) (by decide)).2.2.2⟩
